import Mathlib

/-!
Verification of the real-time call-signaling and presence relay of the
messaging application (server, `src/server/src/index.ts`).

The server keeps a global `connectedUsers : Map<string, User>` and reacts to
socket events (`join`, `call:initiate`, `call:answer`, `call:reject`,
`call:end`, `ice-candidate`, `call:reconnect`, `ping`, `disconnect`), plus a
periodic liveness sweep with a ping/timeout probe.  Each handler is embedded
below as a pure function from the server state (registry plus the set of
live socket ids) and the event data to the new state together with the list
of emitted events, in the exact order the source emits them.
-/

/-- A JavaScript-style value, used for the fields the source types as `any`
(signaling payloads, ICE candidates, caller names). -/
inductive JSVal where
  | undefined
  | null
  | bool (b : Bool)
  | num (n : Int)
  | str (s : String)
  | obj (fields : List (String × JSVal))
deriving Repr

/-- JavaScript truthiness, as used by guards such as `if (!data.signal)`.
(`NaN` is not modelled; `num` covers the integral values the relay sees.) -/
def JSVal.truthy : JSVal → Bool
  | .undefined => false
  | .null => false
  | .bool b => b
  | .num n => n != 0
  | .str s => s ≠ ""
  | .obj _ => true

/-- `typeof v === 'object'` — true exactly for `null` and objects. -/
def JSVal.isObjectType : JSVal → Bool
  | .null => true
  | .obj _ => true
  | _ => false

/-- The `User` record stored in `connectedUsers`
(`{ id, socketId, name?, lastSeen? }`); `lastSeen` in milliseconds. -/
structure User where
  id : String
  socketId : String
  name : Option String
  lastSeen : Option Int
deriving Repr, DecidableEq

/-- The `connectedUsers` map, embedded as an association list keyed by the
user identity.  `Map.set` replaces the binding in place or appends. -/
abbrev Registry := List (String × User)

/-- `connectedUsers.get(uid)` — the first binding with the given key. -/
def regGet : Registry → String → Option User
  | [], _ => none
  | p :: t, k => if p.1 = k then some p.2 else regGet t k

/-- `connectedUsers.set(uid, user)` — replace the existing binding or append. -/
def regSet : Registry → String → User → Registry
  | [], k, v => [(k, v)]
  | p :: t, k, v => if p.1 = k then (k, v) :: t else p :: regSet t k v

/-- `connectedUsers.delete(uid)` — remove the binding with the given key. -/
def regDelete : Registry → String → Registry
  | [], _ => []
  | p :: t, k => if p.1 = k then t else p :: regDelete t k

/-- Well-formedness of the registry as a model of a JavaScript `Map`:
keys are pairwise distinct, so one identity never has two entries. -/
def RegWF (r : Registry) : Prop := (r.map Prod.fst).Nodup

instance (r : Registry) : Decidable (RegWF r) := by
  unfold RegWF
  infer_instance

theorem regGet_set_self (r : Registry) (k : String) (v : User) :
    regGet (regSet r k v) k = some v := by
  induction r with
  | nil => simp [regSet, regGet]
  | cons p t ih =>
    by_cases hp : p.1 = k
    · simp [regSet, regGet, hp]
    · simp [regSet, regGet, hp, ih]

theorem regGet_set_ne (r : Registry) (k k' : String) (v : User) (h : k' ≠ k) :
    regGet (regSet r k v) k' = regGet r k' := by
  have hkk : ¬(k = k') := fun he => h he.symm
  induction r with
  | nil => simp [regSet, regGet, hkk]
  | cons p t ih =>
    by_cases hp : p.1 = k
    · simp [regSet, regGet, hp, hkk]
    · simp [regSet, regGet, hp, ih]

theorem regGet_delete_ne (r : Registry) (k k' : String) (h : k' ≠ k) :
    regGet (regDelete r k) k' = regGet r k' := by
  induction r with
  | nil => simp [regDelete]
  | cons p t ih =>
    by_cases hp : p.1 = k
    · have hkk : ¬(k = k') := fun he => h he.symm
      simp [regDelete, regGet, hp, hkk]
    · simp [regDelete, regGet, hp, ih]

theorem keys_set_subset (r : Registry) (k : String) (v : User) :
    ∀ x ∈ (regSet r k v).map Prod.fst, x ∈ r.map Prod.fst ∨ x = k := by
  induction r with
  | nil =>
    intro x hx
    simp [regSet] at hx
    right
    exact hx
  | cons p t ih =>
    intro x hx
    by_cases hp : p.1 = k
    · have he : regSet (p :: t) k v = (k, v) :: t := by simp [regSet, hp]
      rw [he, List.map_cons] at hx
      rcases List.mem_cons.mp hx with h1 | h1
      · right
        exact h1
      · left
        rw [List.map_cons]
        exact List.mem_cons_of_mem _ h1
    · have he : regSet (p :: t) k v = p :: regSet t k v := by simp [regSet, hp]
      rw [he, List.map_cons] at hx
      rcases List.mem_cons.mp hx with h1 | h1
      · left
        rw [List.map_cons, h1]
        exact List.mem_cons_self _ _
      · rcases ih x h1 with h2 | h2
        · left
          rw [List.map_cons]
          exact List.mem_cons_of_mem _ h2
        · right
          exact h2

theorem RegWF_set (r : Registry) (k : String) (v : User) (h : RegWF r) :
    RegWF (regSet r k v) := by
  induction r with
  | nil => simp [RegWF, regSet]
  | cons p t ih =>
    rw [RegWF, List.map_cons, List.nodup_cons] at h
    by_cases hp : p.1 = k
    · have he : regSet (p :: t) k v = (k, v) :: t := by simp [regSet, hp]
      rw [RegWF, he, List.map_cons, List.nodup_cons]
      constructor
      · rw [← hp]
        exact h.1
      · exact h.2
    · have he : regSet (p :: t) k v = p :: regSet t k v := by simp [regSet, hp]
      rw [RegWF, he, List.map_cons, List.nodup_cons]
      refine ⟨fun hmem => ?_, ih h.2⟩
      rcases keys_set_subset t k v p.1 hmem with h1 | h1
      · exact h.1 h1
      · exact hp h1

theorem keys_delete_subset (r : Registry) (k : String) :
    ∀ x ∈ (regDelete r k).map Prod.fst, x ∈ r.map Prod.fst := by
  induction r with
  | nil =>
    intro x hx
    simp [regDelete] at hx
  | cons p t ih =>
    intro x hx
    by_cases hp : p.1 = k
    · have he : regDelete (p :: t) k = t := by simp [regDelete, hp]
      rw [he] at hx
      rw [List.map_cons]
      exact List.mem_cons_of_mem _ hx
    · have he : regDelete (p :: t) k = p :: regDelete t k := by simp [regDelete, hp]
      rw [he, List.map_cons] at hx
      rw [List.map_cons]
      rcases List.mem_cons.mp hx with h1 | h1
      · rw [h1]
        exact List.mem_cons_self _ _
      · exact List.mem_cons_of_mem _ (ih x h1)

theorem RegWF_delete (r : Registry) (k : String) (h : RegWF r) :
    RegWF (regDelete r k) := by
  induction r with
  | nil => simp [RegWF, regDelete]
  | cons p t ih =>
    rw [RegWF, List.map_cons, List.nodup_cons] at h
    by_cases hp : p.1 = k
    · have he : regDelete (p :: t) k = t := by simp [regDelete, hp]
      rw [he]
      exact h.2
    · have he : regDelete (p :: t) k = p :: regDelete t k := by simp [regDelete, hp]
      rw [RegWF, he, List.map_cons, List.nodup_cons]
      exact ⟨fun hmem => h.1 (keys_delete_subset t k p.1 hmem), ih h.2⟩

theorem regGet_eq_of_mem (r : Registry) (k : String) (v : User)
    (hwf : RegWF r) (hmem : (k, v) ∈ r) : regGet r k = some v := by
  induction r with
  | nil => cases hmem
  | cons p t ih =>
    rw [RegWF, List.map_cons, List.nodup_cons] at hwf
    rcases List.mem_cons.mp hmem with h | h
    · rw [← h]
      simp [regGet]
    · have hk : ¬(p.1 = k) := by
        intro hpk
        exact hwf.1 (hpk ▸ List.mem_map_of_mem Prod.fst h)
      simp only [regGet, if_neg hk]
      exact ih hwf.2 h

/-- The events the server emits, with their payload fields. -/
inductive EmitEvent where
  | connectionError (message : String)
  | connectionSuccess (uid : String)
  | userOnline (uid : String) (name : Option String)
  | userOffline (uid : String) (reason : String)
  | callUserUnavailable (message : String)
  | callUserAvailable (targetId : String) (targetName : Option String)
  | connectionRecovered
  | callIncoming (fromUid : String) (signal : JSVal) (callType : String)
      (callerName : JSVal)
  | callRinging (toUid : String)
  | callError (message : String)
  | callAccepted (signal : JSVal)
  | callRejected
  | callEnded
  | iceCandidate (candidate : JSVal)
  | ping
  | pong (timestamp serverTime : Int)
  | callUserDisconnected (uid : String) (reason : String)
deriving Repr

/-- An emission, tagged with its audience: `toSocket` is
`io.to(socketId).emit(...)` or `socket.emit(...)` on the socket with that id,
`broadcastFrom` is `socket.broadcast.emit(...)` (everyone except `sid`), and
`toAll` is `io.emit(...)`. -/
inductive Event where
  | toSocket (sid : String) (ev : EmitEvent)
  | broadcastFrom (sid : String) (ev : EmitEvent)
  | toAll (ev : EmitEvent)
deriving Repr

/-- The server's mutable state: the `connectedUsers` map and the ids of the
sockets that are currently connected (`io.sockets.sockets`, restricted to
connected ones — `io.sockets.sockets.get(id)` succeeding with a connected
socket is modelled as membership of `id` in `liveSockets`). -/
structure ServerState where
  connectedUsers : Registry
  liveSockets : List String
deriving Repr

/-- `io.sockets.sockets.get(sid)` exists and is connected. -/
def socketLive (st : ServerState) (sid : String) : Bool :=
  st.liveSockets.contains sid

/-- The first registry entry whose `socketId` matches, as found by the
`for ... of connectedUsers.entries()` loops that `break` on first match. -/
def findBySocket : Registry → String → Option (String × User)
  | [], _ => none
  | p :: t, sid => if p.2.socketId = sid then some p else findBySocket t sid

/-- The `socket.on('disconnect')` handler: the socket leaves the transport,
the first registry entry still pointing at this socket (if any) is removed,
and `user:offline` plus `call:user-disconnected` are broadcast to everyone
else.  An entry of the same identity that has been superseded by another
socket does not match and is left alone. -/
def handleDisconnect (st : ServerState) (sid reason : String) :
    ServerState × List Event :=
  let live := st.liveSockets.filter (fun s => ¬(s = sid))
  match findBySocket st.connectedUsers sid with
  | some (uid, _) =>
    ({ connectedUsers := regDelete st.connectedUsers uid, liveSockets := live },
     [Event.broadcastFrom sid (EmitEvent.userOffline uid reason),
      Event.broadcastFrom sid (EmitEvent.callUserDisconnected uid "User disconnected")])
  | none => ({ st with liveSockets := live }, [])

/-- The `socket.on('join')` handler.  An empty identity is rejected with
`connection:error`.  If the identity is already registered under a different
socket that is still connected, that old socket is disconnected
(`oldSocket.disconnect()`), which synchronously runs the disconnect handler;
then the registry binding is overwritten with the new socket and
`connection:success` / `user:online` are emitted. -/
def handleJoin (st : ServerState) (sid uid : String) (name : Option String)
    (now : Int) : ServerState × List Event :=
  if uid = "" then
    (st, [Event.toSocket sid (EmitEvent.connectionError "Invalid user data")])
  else
    let pre : ServerState × List Event :=
      match regGet st.connectedUsers uid with
      | some existing =>
        if ¬(existing.socketId = sid) then
          if socketLive st existing.socketId then
            handleDisconnect st existing.socketId "server namespace disconnect"
          else (st, [])
        else (st, [])
      | none => (st, [])
    let newUser : User := { id := uid, socketId := sid, name := name, lastSeen := some now }
    ({ pre.1 with connectedUsers := regSet pre.1.connectedUsers uid newUser },
     pre.2 ++ [Event.toSocket sid (EmitEvent.connectionSuccess uid),
               Event.broadcastFrom sid (EmitEvent.userOnline uid name)])

/-- The required-field validation of `call:initiate`:
`!data.to || !data.from || !data.signal || !data.type` fails the call. -/
def callInitiateValid (toUid fromUid : String) (signal : JSVal) (callType : String) : Prop :=
  ¬(toUid = "") ∧ ¬(fromUid = "") ∧ signal.truthy = true ∧ ¬(callType = "")

instance (toUid fromUid : String) (signal : JSVal) (callType : String) :
    Decidable (callInitiateValid toUid fromUid signal callType) := by
  unfold callInitiateValid
  infer_instance

/-- The `socket.on('call:initiate')` handler: validate fields, resolve target
and caller, drop a dead target with `call:user-unavailable`, otherwise update
both `lastSeen` stamps, forward `call:incoming` to the target socket and then
acknowledge `call:ringing` to the caller. -/
def handleCallInitiate (st : ServerState) (sid toUid fromUid : String)
    (signal : JSVal) (callType : String) (callerName : JSVal) (now : Int) :
    ServerState × List Event :=
  if callInitiateValid toUid fromUid signal callType then
    match regGet st.connectedUsers toUid with
    | none =>
      (st, [Event.toSocket sid (EmitEvent.callUserUnavailable "User is not available or offline")])
    | some targetUser =>
      match regGet st.connectedUsers fromUid with
      | none =>
        (st, [Event.toSocket sid (EmitEvent.callUserUnavailable "Invalid caller session")])
      | some callerUser =>
        if socketLive st targetUser.socketId then
          let target2 : User := { targetUser with lastSeen := some now }
          let caller2 : User := { callerUser with lastSeen := some now }
          let reg := regSet (regSet st.connectedUsers toUid target2) fromUid caller2
          ({ st with connectedUsers := reg },
           [Event.toSocket targetUser.socketId
              (EmitEvent.callIncoming fromUid signal callType callerName),
            Event.toSocket sid (EmitEvent.callRinging toUid)])
        else
          ({ st with connectedUsers := regDelete st.connectedUsers toUid },
           [Event.toSocket sid (EmitEvent.callUserUnavailable "User is no longer available")])
  else
    (st, [Event.toSocket sid (EmitEvent.callError "Invalid call data")])

/-- The `socket.on('call:answer')` handler: an unknown target returns with no
emission at all; a target whose socket is gone is deleted, again silently;
otherwise `call:accepted` is forwarded to the target socket. -/
def handleCallAnswer (st : ServerState) (toUid : String) (signal : JSVal) :
    ServerState × List Event :=
  match regGet st.connectedUsers toUid with
  | none => (st, [])
  | some targetUser =>
    if socketLive st targetUser.socketId then
      (st, [Event.toSocket targetUser.socketId (EmitEvent.callAccepted signal)])
    else
      ({ st with connectedUsers := regDelete st.connectedUsers toUid }, [])

/-- The `socket.on('call:reject')` handler: forwards `call:rejected` when the
target resolves to a live socket, and otherwise does nothing at all. -/
def handleCallReject (st : ServerState) (toUid : String) : ServerState × List Event :=
  match regGet st.connectedUsers toUid with
  | none => (st, [])
  | some targetUser =>
    if socketLive st targetUser.socketId then
      (st, [Event.toSocket targetUser.socketId EmitEvent.callRejected])
    else (st, [])

/-- The `socket.on('call:end')` handler: forwards `call:ended` when the
target resolves to a live socket, and otherwise does nothing at all. -/
def handleCallEnd (st : ServerState) (toUid : String) : ServerState × List Event :=
  match regGet st.connectedUsers toUid with
  | none => (st, [])
  | some targetUser =>
    if socketLive st targetUser.socketId then
      (st, [Event.toSocket targetUser.socketId EmitEvent.callEnded])
    else (st, [])

/-- The `socket.on('ice-candidate')` handler: missing `to` or falsy
`candidate` returns silently; an unknown target returns silently; a target
whose socket is dead is deleted and the sender is told
`call:user-unavailable`; finally the candidate is relayed only when
`typeof candidate === 'object'`, and otherwise dropped with no emission. -/
def handleIceCandidate (st : ServerState) (sid toUid : String) (candidate : JSVal) :
    ServerState × List Event :=
  if ¬(toUid = "") ∧ candidate.truthy = true then
    match regGet st.connectedUsers toUid with
    | none => (st, [])
    | some targetUser =>
      if socketLive st targetUser.socketId then
        if candidate.truthy && candidate.isObjectType then
          (st, [Event.toSocket targetUser.socketId (EmitEvent.iceCandidate candidate)])
        else (st, [])
      else
        ({ st with connectedUsers := regDelete st.connectedUsers toUid },
         [Event.toSocket sid (EmitEvent.callUserUnavailable "Connection lost during call setup")])
  else (st, [])

/-- The `socket.on('call:reconnect')` handler: both identities must resolve,
and both sockets must be live; otherwise the dead entries are deleted and the
sender gets `call:user-unavailable`; on success both sides are sent
`connection:recovered`. -/
def handleCallReconnect (st : ServerState) (sid toUid fromUid : String) :
    ServerState × List Event :=
  match regGet st.connectedUsers toUid, regGet st.connectedUsers fromUid with
  | some targetUser, some callerUser =>
    if socketLive st targetUser.socketId ∧ socketLive st callerUser.socketId then
      (st, [Event.toSocket targetUser.socketId EmitEvent.connectionRecovered,
            Event.toSocket sid EmitEvent.connectionRecovered])
    else
      let r1 := if socketLive st targetUser.socketId then st.connectedUsers
                else regDelete st.connectedUsers toUid
      let r2 := if socketLive st callerUser.socketId then r1 else regDelete r1 fromUid
      ({ st with connectedUsers := r2 },
       [Event.toSocket sid (EmitEvent.callUserUnavailable "Connection lost during reconnection")])
  | _, _ =>
    (st, [Event.toSocket sid
      (EmitEvent.callUserUnavailable "User is no longer available for reconnection")])

/-- Update the `lastSeen` of the first registry entry bound to this socket,
as the `for ... of` loop with `break` in the `ping` handler does. -/
def regTouchBySocket : Registry → String → Int → Registry
  | [], _, _ => []
  | p :: t, sid, now =>
    if p.2.socketId = sid then (p.1, { p.2 with lastSeen := some now }) :: t
    else p :: regTouchBySocket t sid now

/-- The `socket.on('ping')` handler: reply `pong` and refresh the sender's
`lastSeen`. -/
def handlePing (st : ServerState) (sid : String) (timestamp : Option Int)
    (now : Int) : ServerState × List Event :=
  ({ st with connectedUsers := regTouchBySocket st.connectedUsers sid now },
   [Event.toSocket sid (EmitEvent.pong (timestamp.getD now) now)])

/-- `CONNECTION_TIMEOUT = 120000` ms — the staleness threshold. -/
def CONNECTION_TIMEOUT : Int := 120000

/-- The 10 s `setTimeout` armed after pinging a potentially stale user. -/
def PING_TIMEOUT : Int := 10000

/-- `CLEANUP_INTERVAL = 30000` ms — the sweep period. -/
def CLEANUP_INTERVAL : Int := 30000

/-- `now - (user.lastSeen?.getTime() || 0) > CONNECTION_TIMEOUT`. -/
def isStale (u : User) (now : Int) : Bool :=
  now - (u.lastSeen.getD 0) > CONNECTION_TIMEOUT

/-- The stale entries whose socket is gone or disconnected: collected in
`staleUsers` by the sweep and evicted immediately. -/
def sweepDead (st : ServerState) (now : Int) : List (String × User) :=
  st.connectedUsers.filter (fun p => isStale p.2 now && !(socketLive st p.2.socketId))

/-- The stale entries whose socket still reports itself connected: these get
an out-of-band `ping` and a 10 s eviction timer instead of eviction. -/
def sweepProbed (st : ServerState) (now : Int) : List (String × User) :=
  st.connectedUsers.filter (fun p => isStale p.2 now && socketLive st p.2.socketId)

/-- A pending probe timer armed by the sweep: it remembers the swept user,
its socket, and the sweep's `now` (the closure captures `now`, not the time
at which the timer fires), and fires `PING_TIMEOUT` ms after the sweep. -/
structure ProbeTimer where
  uid : String
  socketId : String
  sweepNow : Int
  fireAt : Int
deriving Repr, DecidableEq

/-- One run of the cleanup `setInterval`: stale entries with a dead socket
are deleted and `user:offline` is broadcast for each; stale entries with a
live socket are pinged and get a probe timer; fresh entries are untouched. -/
def sweepStep (st : ServerState) (now : Int) :
    ServerState × List Event × List ProbeTimer :=
  let probed := sweepProbed st now
  let dead := sweepDead st now
  let pingEvs := probed.map (fun p => Event.toSocket p.2.socketId EmitEvent.ping)
  let timers := probed.map (fun p =>
    { uid := p.1, socketId := p.2.socketId, sweepNow := now,
      fireAt := now + PING_TIMEOUT : ProbeTimer })
  let reg := dead.foldl (fun r p => regDelete r p.1) st.connectedUsers
  let offEvs := dead.map (fun p => Event.toAll (EmitEvent.userOffline p.1 "Stale connection"))
  ({ st with connectedUsers := reg }, pingEvs ++ offEvs, timers)

/-- The probe timer's callback: looks the user up again and evicts only if
the entry still exists, still has a `lastSeen`, and that `lastSeen` is still
more than `CONNECTION_TIMEOUT` before the captured sweep time — so any
traffic that refreshed `lastSeen` in the meantime cancels the eviction.  On
eviction the socket is disconnected (running the disconnect handler if the
socket is still live) and `user:offline` is broadcast. -/
def timerFire (st : ServerState) (tm : ProbeTimer) : ServerState × List Event :=
  match regGet st.connectedUsers tm.uid with
  | some currentUser =>
    match currentUser.lastSeen with
    | some ls =>
      if tm.sweepNow - ls > CONNECTION_TIMEOUT then
        let st1 : ServerState :=
          { st with connectedUsers := regDelete st.connectedUsers tm.uid }
        let closed :=
          if socketLive st1 tm.socketId then
            handleDisconnect st1 tm.socketId "server namespace disconnect"
          else (st1, [])
        (closed.1, closed.2 ++ [Event.toAll (EmitEvent.userOffline tm.uid "Connection timeout")])
      else (st, [])
    | none => (st, [])
  | none => (st, [])

theorem findBySocket_mem (r : Registry) (sid : String) (p : String × User)
    (h : findBySocket r sid = some p) : p ∈ r ∧ p.2.socketId = sid := by
  induction r with
  | nil => cases h
  | cons q t ih =>
    by_cases hq : q.2.socketId = sid
    · have he : findBySocket (q :: t) sid = some q := by simp [findBySocket, hq]
      rw [he] at h
      cases h
      exact ⟨List.mem_cons_self _ _, hq⟩
    · have he : findBySocket (q :: t) sid = findBySocket t sid := by
        simp [findBySocket, hq]
      rw [he] at h
      exact ⟨List.mem_cons_of_mem _ (ih h).1, (ih h).2⟩

theorem contains_filter_ne_self (l : List String) (x : String) :
    (l.filter (fun s => ¬(s = x))).contains x = false := by
  have hnm : ¬ x ∈ l.filter (fun s => ¬(s = x)) := by
    intro hmem
    have h2 := (List.mem_filter.mp hmem).2
    simp at h2
  simp [List.contains, List.elem_eq_mem, hnm]

/-- C2: deregistration on disconnect is guarded by the channel reference:
the handler removes only the entry that still points at the disconnecting
socket, so for any identity whose current entry is bound to a different
(newer) socket, that registration survives the old socket's disconnect. -/
theorem disconnect_preserves_superseded_identity
    (st : ServerState) (oldSid reason x : String) (u : User)
    (hwf : RegWF st.connectedUsers)
    (hx : regGet st.connectedUsers x = some u)
    (hdiff : ¬(u.socketId = oldSid)) :
    regGet (handleDisconnect st oldSid reason).1.connectedUsers x = some u := by
  unfold handleDisconnect
  cases hfd : findBySocket st.connectedUsers oldSid with
  | none => simpa using hx
  | some p =>
    obtain ⟨uid', u'⟩ := p
    have hm := findBySocket_mem _ _ _ hfd
    simp only
    by_cases he : uid' = x
    · exfalso
      subst he
      have hg : regGet st.connectedUsers uid' = some u' := regGet_eq_of_mem _ _ _ hwf hm.1
      rw [hx] at hg
      cases hg
      exact hdiff hm.2
    · rw [regGet_delete_ne _ _ _ (fun hh => he hh.symm)]
      exact hx

/-- `alice` registered on socket `s3`, while old socket `s1` is also live. -/
def stSuperseded : ServerState :=
  { connectedUsers :=
      [("alice", { id := "alice", socketId := "s3", name := some "Alice", lastSeen := some 4 })],
    liveSockets := ["s1", "s3"] }

theorem disconnect_preserves_superseded_identity_check :
    regGet (handleDisconnect stSuperseded "s1" "transport close").1.connectedUsers "alice"
      = some { id := "alice", socketId := "s3", name := some "Alice", lastSeen := some 4 } :=
  disconnect_preserves_superseded_identity stSuperseded "s1" "transport close" "alice"
    { id := "alice", socketId := "s3", name := some "Alice", lastSeen := some 4 }
    (by decide) (by decide) (by decide)

/-- C9: when a registered identity's socket disconnects, the handler
broadcasts both `user:offline` and a `call:user-disconnected` event carrying
that identity to all other sockets, in that order. -/
theorem disconnect_broadcasts_call_user_disconnected
    (st : ServerState) (sid reason uid : String) (u : User)
    (hfd : findBySocket st.connectedUsers sid = some (uid, u)) :
    (handleDisconnect st sid reason).2
      = [Event.broadcastFrom sid (EmitEvent.userOffline uid reason),
         Event.broadcastFrom sid (EmitEvent.callUserDisconnected uid "User disconnected")] := by
  unfold handleDisconnect
  rw [hfd]

/-- `alice` registered on live socket `s1`, alone. -/
def stSolo : ServerState :=
  { connectedUsers :=
      [("alice", { id := "alice", socketId := "s1", name := some "Alice", lastSeen := some 0 })],
    liveSockets := ["s1"] }

theorem disconnect_broadcasts_call_user_disconnected_check :
    (handleDisconnect stSolo "s1" "transport close").2
      = [Event.broadcastFrom "s1" (EmitEvent.userOffline "alice" "transport close"),
         Event.broadcastFrom "s1" (EmitEvent.callUserDisconnected "alice" "User disconnected")] :=
  disconnect_broadcasts_call_user_disconnected stSolo "s1" "transport close" "alice"
    { id := "alice", socketId := "s1", name := some "Alice", lastSeen := some 0 } (by decide)

/-- C3: when both identities are registered and the target's socket is live,
a valid `call:initiate` emits exactly one `call:incoming` to the target's
socket — carrying the caller identity, the signal payload verbatim, the call
type and the caller name — followed by the `call:ringing` acknowledgment to
the caller's socket. -/
theorem initiate_delivers_then_rings
    (st : ServerState) (sid toUid fromUid callType : String)
    (signal callerName : JSVal) (now : Int) (tu cu : User)
    (hval : callInitiateValid toUid fromUid signal callType)
    (htu : regGet st.connectedUsers toUid = some tu)
    (hcu : regGet st.connectedUsers fromUid = some cu)
    (hlive : socketLive st tu.socketId = true) :
    (handleCallInitiate st sid toUid fromUid signal callType callerName now).2
      = [Event.toSocket tu.socketId
           (EmitEvent.callIncoming fromUid signal callType callerName),
         Event.toSocket sid (EmitEvent.callRinging toUid)] := by
  unfold handleCallInitiate
  rw [if_pos hval, htu, hcu]
  simp [hlive]

/-- Two identities registered on live sockets `s1` and `s2`. -/
def stPair : ServerState :=
  { connectedUsers :=
      [("alice", { id := "alice", socketId := "s1", name := some "Alice", lastSeen := some 5 }),
       ("bob", { id := "bob", socketId := "s2", name := some "Bob", lastSeen := some 7 })],
    liveSockets := ["s1", "s2"] }

/-- `alice`'s entry in `stPair`. -/
def stPairAlice : User :=
  { id := "alice", socketId := "s1", name := some "Alice", lastSeen := some 5 }

/-- `bob`'s entry in `stPair`. -/
def stPairBob : User :=
  { id := "bob", socketId := "s2", name := some "Bob", lastSeen := some 7 }

theorem initiate_delivers_then_rings_check :
    (handleCallInitiate stPair "s1" "bob" "alice" (JSVal.str "offer1") "video"
        (JSVal.str "Alice") 9).2
      = [Event.toSocket "s2"
           (EmitEvent.callIncoming "alice" (JSVal.str "offer1") "video" (JSVal.str "Alice")),
         Event.toSocket "s1" (EmitEvent.callRinging "bob")] :=
  initiate_delivers_then_rings stPair "s1" "bob" "alice" "video"
    (JSVal.str "offer1") (JSVal.str "Alice") 9 stPairBob stPairAlice
    (by constructor <;> simp [JSVal.truthy]) (by decide) (by decide) (by decide)

/-- C4: a valid `call:initiate` whose target identity is not registered
returns the state unchanged and emits exactly one `call:user-unavailable`
to the sender — no `call:incoming` to anyone, no duplicate. -/
theorem initiate_unavailable_when_unregistered
    (st : ServerState) (sid toUid fromUid callType : String)
    (signal callerName : JSVal) (now : Int)
    (hval : callInitiateValid toUid fromUid signal callType)
    (hnone : regGet st.connectedUsers toUid = none) :
    handleCallInitiate st sid toUid fromUid signal callType callerName now
      = (st, [Event.toSocket sid
          (EmitEvent.callUserUnavailable "User is not available or offline")]) := by
  unfold handleCallInitiate
  rw [if_pos hval, hnone]

theorem initiate_unavailable_when_unregistered_check :
    handleCallInitiate stSolo "s1" "bob" "alice" (JSVal.str "offer1") "video"
        (JSVal.str "Alice") 9
      = (stSolo, [Event.toSocket "s1"
          (EmitEvent.callUserUnavailable "User is not available or offline")]) :=
  initiate_unavailable_when_unregistered stSolo "s1" "bob" "alice" "video"
    (JSVal.str "offer1") (JSVal.str "Alice") 9
    (by constructor <;> simp [JSVal.truthy]) (by decide)

/-- C10: with a live registered target, an `ice-candidate` signal is relayed
exactly when the candidate is truthy (hence non-null) and of object type;
any other candidate — a string, a number, `true` — is discarded with no
event to the sender or the target and no state change. -/
theorem ice_candidate_object_gate
    (st : ServerState) (sid toUid : String) (candidate : JSVal) (tu : User)
    (hto : ¬(toUid = ""))
    (htu : regGet st.connectedUsers toUid = some tu)
    (hlive : socketLive st tu.socketId = true) :
    handleIceCandidate st sid toUid candidate
      = if candidate.truthy && candidate.isObjectType then
          (st, [Event.toSocket tu.socketId (EmitEvent.iceCandidate candidate)])
        else (st, []) := by
  unfold handleIceCandidate
  by_cases hc : candidate.truthy = true
  · rw [if_pos ⟨hto, hc⟩, htu]
    simp [hlive]
  · have hcf : candidate.truthy = false := by
      cases h : candidate.truthy
      · rfl
      · exact absurd h hc
    rw [if_neg (fun hh => hc hh.2)]
    simp [hcf]

theorem ice_candidate_object_gate_check :
    handleIceCandidate stPair "s1" "bob" (JSVal.str "candidate-as-string")
      = (stPair, []) := by
  have h := ice_candidate_object_gate stPair "s1" "bob" (JSVal.str "candidate-as-string")
    stPairBob (by decide) (by decide) (by decide)
  simpa [JSVal.truthy, JSVal.isObjectType] using h

theorem RegWF_handleDisconnect (st : ServerState) (sid reason : String)
    (h : RegWF st.connectedUsers) :
    RegWF (handleDisconnect st sid reason).1.connectedUsers := by
  unfold handleDisconnect
  cases hfd : findBySocket st.connectedUsers sid with
  | none => simpa using h
  | some p =>
    obtain ⟨uid', u'⟩ := p
    simpa using RegWF_delete _ uid' h

theorem RegWF_handleJoin (st : ServerState) (sid uid : String)
    (name : Option String) (now : Int) (h : RegWF st.connectedUsers) :
    RegWF (handleJoin st sid uid name now).1.connectedUsers := by
  unfold handleJoin
  by_cases huid : uid = ""
  · simpa [huid] using h
  · simp only [if_neg huid]
    apply RegWF_set
    cases hg : regGet st.connectedUsers uid with
    | none => simpa using h
    | some existing =>
      by_cases hdiff : existing.socketId = sid
      · simpa [hdiff] using h
      · by_cases hlive : socketLive st existing.socketId
        · simpa [hdiff, hlive] using
            RegWF_handleDisconnect st existing.socketId "server namespace disconnect" h
        · simpa [hdiff, hlive] using h

/-- One `join` request: the joining socket, the identity, the display name,
and the registration time. -/
structure JoinReq where
  sid : String
  uid : String
  name : Option String
  now : Int

/-- The state after processing one `join` request. -/
def applyJoin (st : ServerState) (j : JoinReq) : ServerState :=
  (handleJoin st j.sid j.uid j.name j.now).1

theorem RegWF_foldl_applyJoin (js : List JoinReq) (st : ServerState)
    (h : RegWF st.connectedUsers) :
    RegWF ((js.foldl applyJoin st).connectedUsers) := by
  induction js generalizing st with
  | nil => exact h
  | cons j t ih =>
    rw [List.foldl_cons]
    exact ih _ (RegWF_handleJoin st j.sid j.uid j.name j.now h)

/-- C1: a `join` for an identity already registered under a different socket
overwrites the registry entry with the new socket, leaves the superseded
socket disconnected, and keeps the registry free of duplicate keys — and any
sequence of joins preserves the one-entry-per-identity invariant. -/
theorem join_supersedes_single_entry
    (st : ServerState) (sid uid : String) (name : Option String) (now : Int)
    (old : User)
    (hwf : RegWF st.connectedUsers)
    (huid : ¬(uid = ""))
    (hold : regGet st.connectedUsers uid = some old)
    (hdiff : ¬(old.socketId = sid)) :
    regGet (handleJoin st sid uid name now).1.connectedUsers uid
      = some { id := uid, socketId := sid, name := name, lastSeen := some now }
    ∧ (handleJoin st sid uid name now).1.liveSockets.contains old.socketId = false
    ∧ RegWF (handleJoin st sid uid name now).1.connectedUsers
    ∧ ∀ js : List JoinReq, RegWF ((js.foldl applyJoin st).connectedUsers) := by
  refine ⟨?_, ?_, RegWF_handleJoin st sid uid name now hwf,
    fun js => RegWF_foldl_applyJoin js st hwf⟩
  · unfold handleJoin
    simp only [if_neg huid]
    exact regGet_set_self _ _ _
  · unfold handleJoin
    simp only [if_neg huid, hold]
    by_cases hlive : socketLive st old.socketId
    · simp only [hdiff, hlive]
      unfold handleDisconnect
      cases hfd : findBySocket st.connectedUsers old.socketId with
      | none => simp [contains_filter_ne_self st.liveSockets old.socketId]
      | some p =>
        obtain ⟨uid', u'⟩ := p
        simp [contains_filter_ne_self st.liveSockets old.socketId]
    · have hlf : st.liveSockets.contains old.socketId = false := by
        unfold socketLive at hlive
        cases h : st.liveSockets.contains old.socketId
        · rfl
        · exact absurd h hlive
      have hnm : old.socketId ∉ st.liveSockets := by
        intro hmem
        rw [List.contains, List.elem_eq_mem, decide_eq_false_iff_not] at hlf
        exact hlf hmem
      simpa [hdiff, hlive] using hnm

theorem join_supersedes_single_entry_check :
    regGet (handleJoin stSolo "s2" "alice" (some "Alice") 3).1.connectedUsers "alice"
      = some { id := "alice", socketId := "s2", name := some "Alice", lastSeen := some 3 } :=
  (join_supersedes_single_entry stSolo "s2" "alice" (some "Alice") 3
    { id := "alice", socketId := "s1", name := some "Alice", lastSeen := some 0 }
    (by decide) (by decide) (by decide) (by decide)).1

/-- C5 counterexample: a `call:answer` addressed to the unregistered identity
`bob` produces no event at all — neither a relay nor an unavailability signal
to the sender — refuting the claim that every accepted signal kind is either
forwarded or answered with an unavailability notice. -/
theorem answer_to_unregistered_is_silent :
    regGet stSolo.connectedUsers "bob" = none
    ∧ handleCallAnswer stSolo "bob" (JSVal.str "answer-sdp") = (stSolo, []) :=
  ⟨rfl, rfl⟩

/-- C5 amended: only `call:initiate` and `call:reconnect` answer an
unregistered target with `call:user-unavailable`; `call:answer`,
`call:reject`, `call:end` and `ice-candidate` drop a signal to an
unregistered target silently, with no event to the sender. -/
theorem unavailability_signal_by_kind
    (st : ServerState) (sid toUid fromUid callType : String)
    (signal candidate callerName : JSVal) (now : Int)
    (hval : callInitiateValid toUid fromUid signal callType)
    (hnone : regGet st.connectedUsers toUid = none) :
    handleCallInitiate st sid toUid fromUid signal callType callerName now
      = (st, [Event.toSocket sid
          (EmitEvent.callUserUnavailable "User is not available or offline")])
    ∧ handleCallReconnect st sid toUid fromUid
      = (st, [Event.toSocket sid
          (EmitEvent.callUserUnavailable "User is no longer available for reconnection")])
    ∧ handleCallAnswer st toUid signal = (st, [])
    ∧ handleCallReject st toUid = (st, [])
    ∧ handleCallEnd st toUid = (st, [])
    ∧ handleIceCandidate st sid toUid candidate = (st, []) := by
  refine ⟨?_, ?_, ?_, ?_, ?_, ?_⟩
  · unfold handleCallInitiate
    rw [if_pos hval, hnone]
  · cases hg : regGet st.connectedUsers fromUid <;>
      simp [handleCallReconnect, hnone, hg]
  · unfold handleCallAnswer
    rw [hnone]
  · unfold handleCallReject
    rw [hnone]
  · unfold handleCallEnd
    rw [hnone]
  · unfold handleIceCandidate
    by_cases hc : candidate.truthy = true
    · by_cases ht : toUid = ""
      · rw [if_neg (fun hh => hh.1 ht)]
      · rw [if_pos ⟨ht, hc⟩, hnone]
    · rw [if_neg (fun hh => hc hh.2)]

theorem unavailability_signal_by_kind_check :
    handleCallAnswer stSolo "carol" (JSVal.str "sdp") = (stSolo, []) :=
  (unavailability_signal_by_kind stSolo "s1" "carol" "alice" "video"
    (JSVal.str "sdp") (JSVal.str "c") (JSVal.str "Alice") 3
    (by constructor <;> simp [JSVal.truthy]) (by decide)).2.2.1

/-- C6 counterexample: an `ice-candidate` with a missing candidate payload
(and one with a missing target identity) is silently ignored — no
client-visible error event is sent to the sender, refuting the claim that a
malformed signal is never silently ignored for any signal kind. -/
theorem ice_missing_fields_silently_ignored :
    handleIceCandidate stSolo "s2" "alice" JSVal.undefined = (stSolo, [])
    ∧ handleIceCandidate stSolo "s1" ""
        (JSVal.obj [("candidate", JSVal.str "c")]) = (stSolo, []) :=
  ⟨rfl, rfl⟩

/-- C6 amended: `call:initiate` reports missing required fields to the sender
with a `call:error` event, but `ice-candidate` with a missing target identity
or missing candidate is dropped silently, with no event to anyone. -/
theorem validation_error_only_on_initiate
    (st : ServerState) (sid toUid fromUid callType : String)
    (signal candidate callerName c2 : JSVal) (now : Int)
    (hbad : ¬ callInitiateValid toUid fromUid signal callType)
    (hcand : candidate.truthy = false) :
    handleCallInitiate st sid toUid fromUid signal callType callerName now
      = (st, [Event.toSocket sid (EmitEvent.callError "Invalid call data")])
    ∧ handleIceCandidate st sid toUid candidate = (st, [])
    ∧ handleIceCandidate st sid "" c2 = (st, []) := by
  refine ⟨?_, ?_, ?_⟩
  · unfold handleCallInitiate
    rw [if_neg hbad]
  · unfold handleIceCandidate
    rw [if_neg (fun hh => by rw [hcand] at hh; exact Bool.false_ne_true hh.2)]
  · unfold handleIceCandidate
    rw [if_neg (fun hh => hh.1 rfl)]

theorem validation_error_only_on_initiate_check :
    handleCallInitiate stSolo "s1" "bob" "alice" JSVal.undefined "video"
        (JSVal.str "Alice") 3
      = (stSolo, [Event.toSocket "s1" (EmitEvent.callError "Invalid call data")]) :=
  (validation_error_only_on_initiate stSolo "s1" "bob" "alice" "video"
    JSVal.undefined JSVal.undefined (JSVal.str "Alice") (JSVal.str "c") 3
    (fun hh => Bool.false_ne_true hh.2.2.1) rfl).1

/-- A well-formed ICE candidate object. -/
def iceObj : JSVal := JSVal.obj [("candidate", JSVal.str "c1")]

/-- C7 counterexample: a successful `ice-candidate` relay between the two
registered identities of `stPair` leaves the whole state — in particular
both `lastSeen` stamps — unchanged, refuting the claim that every signal
kind's successful relay updates `lastSeenAt` of both sender and target. -/
theorem relay_leaves_lastseen_unchanged :
    handleIceCandidate stPair "s1" "bob" iceObj
      = (stPair, [Event.toSocket "s2" (EmitEvent.iceCandidate iceObj)])
    ∧ handleCallAnswer stPair "bob" (JSVal.str "sdp")
      = (stPair, [Event.toSocket "s2" (EmitEvent.callAccepted (JSVal.str "sdp"))]) :=
  ⟨rfl, rfl⟩

/-- C7 amended: only `call:initiate` piggy-backs liveness — it sets the
`lastSeen` of both target and caller to the relay time, changing nothing
else and no other identity's entry; the `call:answer`, `call:reject`,
`call:end` and `ice-candidate` relays leave the registry entirely
unchanged. -/
theorem lastseen_touched_only_by_initiate
    (st : ServerState) (sid toUid fromUid callType to2 : String)
    (signal callerName sig2 cand2 : JSVal) (now : Int) (tu cu tu2 : User)
    (hval : callInitiateValid toUid fromUid signal callType)
    (htu : regGet st.connectedUsers toUid = some tu)
    (hcu : regGet st.connectedUsers fromUid = some cu)
    (hlive : socketLive st tu.socketId = true)
    (hne : ¬(fromUid = toUid))
    (hget2 : regGet st.connectedUsers to2 = some tu2)
    (hlive2 : socketLive st tu2.socketId = true) :
    regGet (handleCallInitiate st sid toUid fromUid signal callType
        callerName now).1.connectedUsers toUid
      = some { tu with lastSeen := some now }
    ∧ regGet (handleCallInitiate st sid toUid fromUid signal callType
        callerName now).1.connectedUsers fromUid
      = some { cu with lastSeen := some now }
    ∧ (∀ c, ¬(c = toUid) → ¬(c = fromUid) →
        regGet (handleCallInitiate st sid toUid fromUid signal callType
            callerName now).1.connectedUsers c
          = regGet st.connectedUsers c)
    ∧ (handleCallInitiate st sid toUid fromUid signal callType
        callerName now).1.liveSockets = st.liveSockets
    ∧ (handleCallAnswer st to2 sig2).1 = st
    ∧ (handleCallReject st to2).1 = st
    ∧ (handleCallEnd st to2).1 = st
    ∧ (handleIceCandidate st sid to2 cand2).1 = st := by
  have hred : handleCallInitiate st sid toUid fromUid signal callType callerName now
      = ({ st with
             connectedUsers :=
               regSet
                 (regSet st.connectedUsers toUid { tu with lastSeen := some now })
                 fromUid { cu with lastSeen := some now } },
         [Event.toSocket tu.socketId
            (EmitEvent.callIncoming fromUid signal callType callerName),
          Event.toSocket sid (EmitEvent.callRinging toUid)]) := by
    unfold handleCallInitiate
    rw [if_pos hval, htu, hcu]
    simp [hlive]
  refine ⟨?_, ?_, ?_, ?_, ?_, ?_, ?_, ?_⟩
  · rw [hred]
    have h1 := regGet_set_ne
      (regSet st.connectedUsers toUid { tu with lastSeen := some now })
      fromUid toUid { cu with lastSeen := some now } (fun he => hne he.symm)
    rw [h1]
    exact regGet_set_self _ _ _
  · rw [hred]
    exact regGet_set_self _ _ _
  · intro c hc1 hc2
    rw [hred]
    rw [regGet_set_ne _ _ _ _ hc2, regGet_set_ne _ _ _ _ hc1]
  · rw [hred]
  · unfold handleCallAnswer
    rw [hget2]
    simp [hlive2]
  · unfold handleCallReject
    rw [hget2]
    simp [hlive2]
  · unfold handleCallEnd
    rw [hget2]
    simp [hlive2]
  · unfold handleIceCandidate
    by_cases hc : cand2.truthy = true
    · by_cases ht : to2 = ""
      · rw [if_neg (fun hh => hh.1 ht)]
      · rw [if_pos ⟨ht, hc⟩, hget2]
        simp only [hlive2, if_true]
        split <;> rfl
    · rw [if_neg (fun hh => hc hh.2)]

theorem lastseen_touched_only_by_initiate_check :
    regGet (handleCallInitiate stPair "s1" "bob" "alice" (JSVal.str "offer1")
        "video" (JSVal.str "Alice") 9).1.connectedUsers "bob"
      = some { id := "bob", socketId := "s2", name := some "Bob", lastSeen := some 9 } :=
  (lastseen_touched_only_by_initiate stPair "s1" "bob" "alice" "video" "bob"
    (JSVal.str "offer1") (JSVal.str "Alice") (JSVal.str "sdp") iceObj 9
    stPairBob stPairAlice stPairBob
    (by constructor <;> simp [JSVal.truthy]) (by decide) (by decide) (by decide)
    (by decide) (by decide) (by decide)).1

theorem regGet_foldl_delete (l : List (String × User)) (r : Registry) (uid : String)
    (h : ∀ p ∈ l, ¬(p.1 = uid)) :
    regGet (l.foldl (fun acc p => regDelete acc p.1) r) uid = regGet r uid := by
  induction l generalizing r with
  | nil => rfl
  | cons p t ih =>
    rw [List.foldl_cons, ih _ (fun q hq => h q (List.mem_cons_of_mem _ hq))]
    exact regGet_delete_ne r p.1 uid (fun he => h p (List.mem_cons_self _ _) he.symm)

theorem regGet_touch_of_find (r : Registry) (sid uid : String) (u : User) (t : Int)
    (hwf : RegWF r) (hfd : findBySocket r sid = some (uid, u)) :
    regGet (regTouchBySocket r sid t) uid = some { u with lastSeen := some t } := by
  induction r with
  | nil => cases hfd
  | cons p tl ih =>
    rw [RegWF, List.map_cons, List.nodup_cons] at hwf
    by_cases hp : p.2.socketId = sid
    · have he : findBySocket (p :: tl) sid = some p := by simp [findBySocket, hp]
      rw [he] at hfd
      have hp2 : p = (uid, u) := by injection hfd
      subst hp2
      have hps : u.socketId = sid := hp
      simp [regTouchBySocket, hps, regGet]
    · have he : findBySocket (p :: tl) sid = findBySocket tl sid := by
        simp [findBySocket, hp]
      rw [he] at hfd
      have hmem := (findBySocket_mem tl sid _ hfd).1
      have hk : ¬(p.1 = uid) := by
        intro hpk
        exact hwf.1 (hpk ▸ List.mem_map_of_mem Prod.fst hmem)
      have ht : regTouchBySocket (p :: tl) sid t = p :: regTouchBySocket tl sid t := by
        simp [regTouchBySocket, hp]
      rw [ht]
      simp only [regGet, if_neg hk]
      exact ih hwf.2 hfd

theorem sweepDead_key_ne (st : ServerState) (now : Int) (uid : String) (u : User)
    (hwf : RegWF st.connectedUsers)
    (hget : regGet st.connectedUsers uid = some u)
    (hlive : socketLive st u.socketId = true) :
    ∀ p ∈ sweepDead st now, ¬(p.1 = uid) := by
  intro p hp hpk
  have hmem := List.mem_filter.mp hp
  have hg : regGet st.connectedUsers p.1 = some p.2 :=
    regGet_eq_of_mem _ _ _ hwf hmem.1
  rw [hpk, hget] at hg
  have hinj : u = p.2 := by injection hg
  have hcond := hmem.2
  rw [← hinj, hlive] at hcond
  simp at hcond

/-- C8: two-phase liveness eviction.  (1) The periodic sweep never evicts an
entry whose socket still reports itself connected; (2) every probe timer it
arms records the sweep time and fires a full `PING_TIMEOUT` later, and (3) is
armed only for entries past the `CONNECTION_TIMEOUT` staleness threshold;
(4) the timer callback leaves the state untouched whenever the entry's
`lastSeen` no longer satisfies the staleness test against the captured sweep
time; (5) in particular a `ping` from the probed socket that refreshes
`lastSeen` before the timer fires cancels the eviction; (6) a probe eviction
always broadcasts `user:offline`, and (7) so does every dead-socket sweep
eviction. -/
theorem liveness_two_phase_eviction
    (st : ServerState) (now : Int) (uid : String) (u : User)
    (hwf : RegWF st.connectedUsers)
    (hget : regGet st.connectedUsers uid = some u)
    (hlive : socketLive st u.socketId = true) :
    regGet (sweepStep st now).1.connectedUsers uid = some u
    ∧ (∀ tm ∈ (sweepStep st now).2.2,
        tm.sweepNow = now ∧ tm.fireAt = now + PING_TIMEOUT)
    ∧ (∀ tm ∈ (sweepStep st now).2.2, tm.uid = uid → isStale u now = true)
    ∧ (∀ tm : ProbeTimer, ∀ u' : User, ∀ ls : Int,
        regGet st.connectedUsers tm.uid = some u' → u'.lastSeen = some ls →
        ¬(tm.sweepNow - ls > CONNECTION_TIMEOUT) → timerFire st tm = (st, []))
    ∧ (∀ t : Int, findBySocket st.connectedUsers u.socketId = some (uid, u) →
        ¬(now - t > CONNECTION_TIMEOUT) →
        timerFire (handlePing st u.socketId none t).1
            { uid := uid, socketId := u.socketId, sweepNow := now,
              fireAt := now + PING_TIMEOUT }
          = ((handlePing st u.socketId none t).1, []))
    ∧ (∀ tm : ProbeTimer, ∀ u' : User, ∀ ls : Int,
        regGet st.connectedUsers tm.uid = some u' → u'.lastSeen = some ls →
        tm.sweepNow - ls > CONNECTION_TIMEOUT →
        Event.toAll (EmitEvent.userOffline tm.uid "Connection timeout")
          ∈ (timerFire st tm).2)
    ∧ (∀ p ∈ sweepDead st now,
        Event.toAll (EmitEvent.userOffline p.1 "Stale connection")
          ∈ (sweepStep st now).2.1) := by
  refine ⟨?_, ?_, ?_, ?_, ?_, ?_, ?_⟩
  · have hkeys := sweepDead_key_ne st now uid u hwf hget hlive
    simp only [sweepStep]
    rw [regGet_foldl_delete _ _ _ hkeys]
    exact hget
  · intro tm htm
    simp only [sweepStep] at htm
    obtain ⟨p, _, hq⟩ := List.mem_map.mp htm
    rw [← hq]
    exact ⟨rfl, rfl⟩
  · intro tm htm hu
    simp only [sweepStep] at htm
    obtain ⟨p, hp, hq⟩ := List.mem_map.mp htm
    have hmem := List.mem_filter.mp hp
    have hpk : p.1 = uid := by
      rw [← hu, ← hq]
    have hg : regGet st.connectedUsers p.1 = some p.2 :=
      regGet_eq_of_mem _ _ _ hwf hmem.1
    rw [hpk, hget] at hg
    have hinj : u = p.2 := by injection hg
    have hcond := hmem.2
    rw [← hinj] at hcond
    exact (Bool.and_eq_true _ _).mp hcond |>.1
  · intro tm u' ls hg hls hns
    unfold timerFire
    simp only [hg, hls]
    rw [if_neg hns]
  · intro t hfd hns
    have hg2 : regGet (handlePing st u.socketId none t).1.connectedUsers uid
        = some { u with lastSeen := some t } := by
      simp only [handlePing]
      exact regGet_touch_of_find _ _ _ _ _ hwf hfd
    unfold timerFire
    simp only [hg2]
    rw [if_neg hns]
  · intro tm u' ls hg hls hcond
    unfold timerFire
    simp only [hg, hls]
    rw [if_pos hcond]
    exact List.mem_append_right _ (List.mem_singleton_self _)
  · intro p hp
    simp only [sweepStep]
    exact List.mem_append_right _ (List.mem_map_of_mem _ hp)

theorem liveness_two_phase_eviction_check :
    regGet (sweepStep stPair 200000).1.connectedUsers "alice" = some stPairAlice :=
  (liveness_two_phase_eviction stPair 200000 "alice" stPairAlice
    (by decide) (by decide) (by decide)).1
